import Mathlib

/-
Verification of the edk2-pytool-extensions submodule setup engine
(src/edk2toolext/invocables/edk2_setup.py) and the NuGet download
helper (src/edk2toolext/bin/nuget.py).

The Python code is shallowly embedded: external command execution
(RunCmd), filesystem queries and manifest parsing are abstracted as
environments of functions, and each modelled routine returns the trace
of external commands it issued together with its outcome, so that
claims about which commands are issued, in which order, and with which
resulting status can be stated and proved.
-/

namespace Edk2Setup

/-- Model of the Python str.lower method: lowercase every character.
Defined over the character list so that concrete instances reduce in
the kernel. -/
def strLower (s : String) : String := String.mk (s.data.map Char.toLower)

/-- Whitespace recogniser for the model of the Python str.strip
method: space, tab, newline, carriage return and form feed. -/
def isSpaceChar (c : Char) : Bool :=
  c = ' ' || c = '\t' || c = '\n' || c = '\r' || c = '\x0c'

/-- Model of the Python str.strip method: drop leading and trailing
whitespace.  Defined over the character list so that concrete
instances reduce in the kernel. -/
def strStrip (s : String) : String :=
  String.mk (((s.data.dropWhile isSpaceChar).reverse.dropWhile isSpaceChar).reverse)

/-- A URL substitution rule from the special configuration document:
Python dict with keys url (the match url) and sub (the replacement). -/
structure SubRule where
  url : String
  sub : String
deriving DecidableEq

/-- Embedding of get_url_substitution_from_list (edk2_setup.py lines
229-236): iterate the rule list in order, return the sub field of the
first rule whose url equals the query case-insensitively, else none.
The Python for/else always reaches the else (there is no break), so an
empty or match-free list yields None. -/
def get_url_substitution_from_list (url : String) : List SubRule → Option String
  | [] => none
  | s :: rest =>
    if strLower url = strLower s.url then some s.sub
    else get_url_substitution_from_list url rest

/-- Modelled from the spec words of section 4.3, for a refinement
comparison with the source definition: first rule whose match url
equals the query case-insensitively, in declaration order. -/
def resolve_spec (url : String) (rules : List SubRule) : Option String :=
  (rules.find? (fun r => strLower url == strLower r.url)).map SubRule.sub

/-- An external git command issued by the setup engine, as recorded in
a trace.  sync, diff and update are issued by the standard mode of Go
(working directory is always the workspace root there); setUrl and
init are issued by special_init_submodule with an explicit working
directory. -/
inductive Cmd where
  | sync (paths : String)
  | diff (path : String)
  | update (recursive : Bool) (omnicache : Option String) (path : String)
  | setUrl (wd : String) (name : String) (url : String)
  | init (wd : String) (path : String)
deriving DecidableEq

/-- A required submodule declaration (edk2_setup.py lines 23-34):
workspace relative path plus a recursion flag. -/
structure RequiredSubmodule where
  path : String
  recursive : Bool
deriving DecidableEq

/-- Environment for the standard mode of Go: results of the external
queries and commands, keyed by submodule path.  pathExists models
os.path.exists on the normalised joined path; diffOutput models the
git diff query (none means the command exited nonzero and RunCmd
raised, some out is the captured stdout); updateRet is the exit code
of the per-submodule git submodule update command; syncRet is the exit
code of the combined git submodule sync command, keyed by the joined
path string it receives. -/
structure StdEnv where
  pathExists : String → Bool
  diffOutput : String → Option String
  updateRet : String → Int
  syncRet : String → Int

/-- Outcome of one iteration of the Go step 2 loop body: done models
reaching log_progress Done, errorLogged models the RuntimeError being
caught by the per-item except block which logs and falls through to
the next iteration. -/
inductive ItemOutcome where
  | done
  | errorLogged
deriving DecidableEq

/-- Embedding of one iteration of the Go step 2 loop (edk2_setup.py
lines 162-208) for one required submodule: if the path exists and
force is off, run the git diff query (a nonzero exit raises, caught by
the except block); nonempty stripped output means dirty, so the
submodule is skipped with no update command; otherwise the update
command is issued and a nonzero exit raises, caught by the except
block.  Returns the issued commands and the outcome. -/
def processSubmodule (env : StdEnv) (force : Bool) (omnicache : Option String)
    (sm : RequiredSubmodule) : List Cmd × ItemOutcome :=
  if env.pathExists sm.path && !force then
    match env.diffOutput sm.path with
    | none => ([Cmd.diff sm.path], ItemOutcome.errorLogged)
    | some out =>
      if strStrip out ≠ "" then
        ([Cmd.diff sm.path], ItemOutcome.done)
      else
        if env.updateRet sm.path = 0 then
          ([Cmd.diff sm.path, Cmd.update sm.recursive omnicache sm.path], ItemOutcome.done)
        else
          ([Cmd.diff sm.path, Cmd.update sm.recursive omnicache sm.path], ItemOutcome.errorLogged)
  else
    if env.updateRet sm.path = 0 then
      ([Cmd.update sm.recursive omnicache sm.path], ItemOutcome.done)
    else
      ([Cmd.update sm.recursive omnicache sm.path], ItemOutcome.errorLogged)

/-- The Go step 2 loop over the declared submodules, collecting the
commands issued by each iteration in order.  Per-item failures are
caught inside each iteration, so the loop always runs to the end of
the list. -/
def processList (env : StdEnv) (force : Bool) (omnicache : Option String) :
    List RequiredSubmodule → List Cmd
  | [] => []
  | sm :: rest =>
    (processSubmodule env force omnicache sm).1 ++ processList env force omnicache rest

/-- Embedding of the submodule phase of Edk2PlatformSetup.Go
(edk2_setup.py lines 140-209) in standard mode (no special file).
With an empty declared list the whole block is skipped and Go returns
0.  Otherwise step 1 issues one combined sync command over the joined
path string; a nonzero exit raises, is caught, logged, and Go returns
with a bare return statement (modelled as none, the Python None).
Otherwise step 2 processes every declared submodule and Go returns 0
regardless of per-item outcomes. -/
def Go_submodulePhase (env : StdEnv) (force : Bool) (omnicache : Option String)
    (required_submodules : List RequiredSubmodule) : List Cmd × Option Int :=
  if required_submodules.isEmpty then ([], some 0)
  else
    let submodule_string := String.intercalate " " (required_submodules.map RequiredSubmodule.path)
    if env.syncRet submodule_string ≠ 0 then
      ([Cmd.sync submodule_string], none)
    else
      (Cmd.sync submodule_string :: processList env force omnicache required_submodules, some 0)

/-- A submodule record discovered by get_repo_submodules from a
repository .gitmodules manifest: name, path and url. -/
structure SubmoduleInfo where
  name : String
  path : String
  url : String
deriving DecidableEq

mutual
/-- The on-disk nesting structure of submodule repositories, as
discovered by get_repo_submodules: a node is one submodule record
together with the records of its own .gitmodules manifest, which
becomes readable once the node has been initialised. -/
inductive SubTree where
  | mk (info : SubmoduleInfo) (children : SubForest)
/-- A list of sibling submodule nodes, in manifest declaration
order. -/
inductive SubForest where
  | nil
  | cons (head : SubTree) (tail : SubForest)
end

/-- The record stored at the root of a submodule node. -/
def SubTree.info : SubTree → SubmoduleInfo
  | SubTree.mk si _ => si

/-- Model of os.path.normpath(os.path.join(a, b)) as used to form the
repo_path of a submodule under its containing repository. -/
def pathJoin (a b : String) : String := a ++ "/" ++ b

/-- Environment for the special setup walk: exit codes of the two git
commands it issues, keyed by working directory and arguments.
setUrlRet is the exit code of git submodule set-url run in the
containing repository for a given submodule name and new url; initRet
is the exit code of git submodule update --init run in the containing
repository for a given submodule path. -/
structure SpecialEnv where
  setUrlRet : String → String → String → Int
  initRet : String → String → Int

mutual
/-- Embedding of special_init_submodule (edk2_setup.py lines 238-270).
Resolve a url substitution for the record url; if one is found, issue
the set-url command in root_path and return False on nonzero exit.
Then issue the init command for the record path in root_path and
return False on nonzero exit.  If recursive, read the submodules of
the freshly initialised repository (the children of the node) and
process each in order, returning False as soon as one fails.  Returns
the issued command trace and the boolean result. -/
def special_init_submodule (env : SpecialEnv) (cfg : List SubRule) (recursive : Bool)
    (root_path : String) : SubTree → List Cmd × Bool
  | SubTree.mk si children =>
    let pre : List Cmd × Bool :=
      match get_url_substitution_from_list si.url cfg with
      | some url_sub =>
        ([Cmd.setUrl root_path si.name url_sub],
         decide (env.setUrlRet root_path si.name url_sub = 0))
      | none => ([], true)
    if pre.2 = false then (pre.1, false)
    else if env.initRet root_path si.path ≠ 0 then
      (pre.1 ++ [Cmd.init root_path si.path], false)
    else if recursive then
      let r := special_init_forest env cfg recursive (pathJoin root_path si.path) children
      ((pre.1 ++ [Cmd.init root_path si.path]) ++ r.1, r.2)
    else
      (pre.1 ++ [Cmd.init root_path si.path], true)

/-- The loop of special_init_submodule over the nested submodules of a
freshly initialised repository (edk2_setup.py lines 262-268): process
siblings in order, and on the first failure stop and propagate False
without touching the remaining siblings. -/
def special_init_forest (env : SpecialEnv) (cfg : List SubRule) (recursive : Bool)
    (repo_path : String) : SubForest → List Cmd × Bool
  | SubForest.nil => ([], true)
  | SubForest.cons t rest =>
    let r := special_init_submodule env cfg recursive repo_path t
    if r.2 then
      let r2 := special_init_forest env cfg recursive repo_path rest
      (r.1 ++ r2.1, r2.2)
    else (r.1, false)
end

/-- The inner loop of SpecialSetup (edk2_setup.py lines 278-283): for
one root submodule record, scan the required submodule declarations;
on a path match run special_init_submodule with that declaration
recursion flag, and on failure raise (modelled as an immediate False
that aborts everything). -/
def special_setup_inner (env : SpecialEnv) (cfg : List SubRule) (root_path : String)
    (t : SubTree) : List RequiredSubmodule → List Cmd × Bool
  | [] => ([], true)
  | req :: rest =>
    if t.info.path = req.path then
      let r := special_init_submodule env cfg req.recursive root_path t
      if r.2 then
        let r2 := special_setup_inner env cfg root_path t rest
        (r.1 ++ r2.1, r2.2)
      else (r.1, false)
    else special_setup_inner env cfg root_path t rest

/-- The outer loop of SpecialSetup (edk2_setup.py lines 276-283) over
the root repository submodule records; a failure raised in the inner
loop aborts the remaining records. -/
def special_setup_outer (env : SpecialEnv) (cfg : List SubRule) (root_path : String) :
    SubForest → List RequiredSubmodule → List Cmd × Bool
  | SubForest.nil, _ => ([], true)
  | SubForest.cons t rest, reqs =>
    let r := special_setup_inner env cfg root_path t reqs
    if r.2 then
      let r2 := special_setup_outer env cfg root_path rest reqs
      (r.1 ++ r2.1, r2.2)
    else (r.1, false)

/-- Embedding of Edk2PlatformSetup.SpecialSetup (edk2_setup.py lines
272-289): walk the root records against the required declarations; the
RuntimeError raised on the first failure is caught at the top and
converted to -1, otherwise 0 is returned. -/
def SpecialSetup (env : SpecialEnv) (cfg : List SubRule) (root_path : String)
    (root_forest : SubForest) (reqs : List RequiredSubmodule) : List Cmd × Int :=
  let r := special_setup_outer env cfg root_path root_forest reqs
  (r.1, if r.2 then 0 else -1)

mutual
/-- The containing-directory and path location of every node of a
submodule tree walked from a given root: the pair recorded for a node
is exactly the working directory and path argument of the init command
that special_init_submodule would issue for it. -/
def treeLocs (root_path : String) : SubTree → List (String × String)
  | SubTree.mk si children =>
    (root_path, si.path) :: forestLocs (pathJoin root_path si.path) children
/-- Locations of every node of a forest of sibling subtrees. -/
def forestLocs (root_path : String) : SubForest → List (String × String)
  | SubForest.nil => []
  | SubForest.cons t rest => treeLocs root_path t ++ forestLocs root_path rest
end

/-- The pinned SHA256 constant of nuget.py line 17. -/
def SHA256 : String := "852b71cc8c8c2d40d09ea49d321ff56fd2397b9d6ea9f96e532530307bbbafd3"

/-- Environment for DownloadNuget: whether NuGet.exe is already on
disk at entry (os.path.isfile), its content when it is, the result of
the download when attempted (none models urlopen raising HTTPError
before any file is written, some content models a successful write),
and the hex digest function applied by hashlib.sha256. -/
structure NugetEnv where
  isFile : Bool
  existingContent : List Nat
  downloadResult : Option (List Nat)
  sha256hex : List Nat → String

/-- Outcome of a DownloadNuget call: normal return, HTTPError
propagated from the download, or the RuntimeError raised on a digest
mismatch. -/
inductive NugetOutcome where
  | ok
  | httpError
  | shaMismatch
deriving DecidableEq

/-- Observable effects of a DownloadNuget call: whether a download was
attempted, whether the hash verification ran, whether NuGet.exe is
still on disk when the call ends, and the outcome. -/
structure NugetResult where
  downloadAttempted : Bool
  hashChecked : Bool
  fileOnDisk : Bool
  outcome : NugetOutcome
deriving DecidableEq

/-- Embedding of DownloadNuget (nuget.py lines 20-53).  If the file is
not already present it is downloaded (an HTTPError propagates, leaving
no file).  The file content is then hashed and the lowercased digest
compared with the lowercased pinned constant; on mismatch the file is
removed with os.remove before RuntimeError is raised. -/
def DownloadNuget (env : NugetEnv) : NugetResult :=
  if env.isFile then
    if strLower (env.sha256hex env.existingContent) ≠ strLower SHA256 then
      ⟨false, true, false, NugetOutcome.shaMismatch⟩
    else
      ⟨false, true, true, NugetOutcome.ok⟩
  else
    match env.downloadResult with
    | none => ⟨true, false, false, NugetOutcome.httpError⟩
    | some content =>
      if strLower (env.sha256hex content) ≠ strLower SHA256 then
        ⟨true, true, false, NugetOutcome.shaMismatch⟩
      else
        ⟨true, true, true, NugetOutcome.ok⟩

/-- Splitting lemma for the rule scan: on a concatenated rule list the
result is the result on the first part when that is a match, else the
result on the second part. -/
theorem get_url_substitution_append (url : String) (xs ys : List SubRule) :
    get_url_substitution_from_list url (xs ++ ys) =
      match get_url_substitution_from_list url xs with
      | some s => some s
      | none => get_url_substitution_from_list url ys := by
  induction xs with
  | nil => rfl
  | cons s rest ih =>
    by_cases h : strLower url = strLower s.url
    · simp [get_url_substitution_from_list, h]
    · simp [get_url_substitution_from_list, h, ih]

/-- The rule scan only depends on the sublist of matching rules: it
returns the sub field of the head of that sublist. -/
theorem get_url_substitution_filter (url : String) (rules : List SubRule) :
    get_url_substitution_from_list url rules =
      (List.head? (rules.filter (fun r => strLower url == strLower r.url))).map SubRule.sub := by
  induction rules with
  | nil => rfl
  | cons s rest ih =>
    by_cases h : strLower url = strLower s.url
    · have hb : (strLower url == strLower s.url) = true := beq_iff_eq.mpr h
      simp [get_url_substitution_from_list, List.filter, h, hb]
    · have hb : (strLower url == strLower s.url) = false := beq_eq_false_iff_ne.mpr h
      simp [get_url_substitution_from_list, List.filter, h, hb, ih]

/-- C4: for every url and ordered rule list, the source function
get_url_substitution_from_list coincides with resolve_spec, the
definition written from the spec contract: the replacement of the
first rule whose match url equals the query under case-insensitive
exact string comparison, and none when no rule matches.  Both are
plain functions of their arguments, so the resolution has no side
effects. -/
theorem C4_resolution_refines_spec (url : String) (rules : List SubRule) :
    get_url_substitution_from_list url rules = resolve_spec url rules := by
  induction rules with
  | nil => rfl
  | cons s rest ih =>
    by_cases h : strLower url = strLower s.url
    · have hb : (strLower url == strLower s.url) = true := beq_iff_eq.mpr h
      simp [get_url_substitution_from_list, resolve_spec, List.find?, h, hb]
    · have hb : (strLower url == strLower s.url) = false := beq_eq_false_iff_ne.mpr h
      simp [get_url_substitution_from_list, resolve_spec, List.find?, h, hb] at ih ⊢
      exact ih

/-- C7: the resolution result is unchanged when the rules that do not
match the url are reordered (stated through the invariance of the
matching sublist, which any such reordering preserves), and unchanged
when the matching rule is duplicated in place. -/
theorem C7_reorder_and_duplicate (url : String) (R₁ R₂ pre post : List SubRule) (r : SubRule)
    (hfilter : R₁.filter (fun s => strLower url == strLower s.url) =
               R₂.filter (fun s => strLower url == strLower s.url))
    (hmatch : strLower url = strLower r.url) :
    get_url_substitution_from_list url R₁ = get_url_substitution_from_list url R₂ ∧
    get_url_substitution_from_list url (pre ++ r :: r :: post) =
      get_url_substitution_from_list url (pre ++ r :: post) := by
  constructor
  · rw [get_url_substitution_filter, get_url_substitution_filter, hfilter]
  · rw [get_url_substitution_append, get_url_substitution_append]
    cases get_url_substitution_from_list url pre with
    | some s => rfl
    | none => simp [get_url_substitution_from_list, hmatch]

/-- Witness for C7 at a concrete url and rule lists. -/
theorem C7_reorder_and_duplicate_witness :
    (([⟨"https://a", "s1"⟩, ⟨"https://b", "s2"⟩] : List SubRule).filter
        (fun s => strLower "HTTPS://B" == strLower s.url) =
      ([⟨"https://b", "s2"⟩, ⟨"https://a", "s1"⟩] : List SubRule).filter
        (fun s => strLower "HTTPS://B" == strLower s.url)) ∧
    (strLower "HTTPS://B" = strLower "https://b") ∧
    (get_url_substitution_from_list "HTTPS://B" [⟨"https://a", "s1"⟩, ⟨"https://b", "s2"⟩] =
      get_url_substitution_from_list "HTTPS://B" [⟨"https://b", "s2"⟩, ⟨"https://a", "s1"⟩] ∧
    get_url_substitution_from_list "HTTPS://B"
        ([⟨"https://a", "s1"⟩] ++ ⟨"https://b", "s2"⟩ :: ⟨"https://b", "s2"⟩ :: []) =
      get_url_substitution_from_list "HTTPS://B"
        ([⟨"https://a", "s1"⟩] ++ ⟨"https://b", "s2"⟩ :: [])) :=
  ⟨by decide, by decide,
    C7_reorder_and_duplicate "HTTPS://B"
      [⟨"https://a", "s1"⟩, ⟨"https://b", "s2"⟩]
      [⟨"https://b", "s2"⟩, ⟨"https://a", "s1"⟩]
      [⟨"https://a", "s1"⟩] [] ⟨"https://b", "s2"⟩ (by decide) (by decide)⟩

/-- The step 2 loop processes a concatenation of declared submodules
as the concatenation of the two runs of issued commands. -/
theorem processList_append (env : StdEnv) (force : Bool) (oc : Option String)
    (xs ys : List RequiredSubmodule) :
    processList env force oc (xs ++ ys) =
      processList env force oc xs ++ processList env force oc ys := by
  induction xs with
  | nil => rfl
  | cons a l ih => simp [processList, ih]

/-- C2 counterexample: the claim as stated fails when the dirty query
returns output that is non-empty but consists only of whitespace.
With path present, force off, and diff output a single space (which is
non-empty), the code strips it to the empty string, treats the
submodule as clean, and does issue the update command, where the claim
says none is issued. -/
theorem C2_counterexample :
    ((" " : String) ≠ "") ∧
    (StdEnv.mk (fun _ => true) (fun _ => some " ") (fun _ => 0) (fun _ => 0)).pathExists "a" = true ∧
    (StdEnv.mk (fun _ => true) (fun _ => some " ") (fun _ => 0) (fun _ => 0)).diffOutput "a" = some " " ∧
    Cmd.update true none "a" ∈
      (processSubmodule (StdEnv.mk (fun _ => true) (fun _ => some " ") (fun _ => 0) (fun _ => 0))
        false none ⟨"a", true⟩).1 := by
  refine ⟨by decide, rfl, rfl, by decide⟩

/-- C2 (amended): when force mode is off, the submodule path exists on
disk, and the dirty query output is non-empty after stripping
whitespace (the dirtiness test the code actually applies), then no
update command is issued for that submodule, its iteration ends in the
done outcome, and the loop continues with the remaining declared
submodules. -/
theorem C2_dirty_submodule_skipped (env : StdEnv) (oc : Option String)
    (sm : RequiredSubmodule) (out : String)
    (hex : env.pathExists sm.path = true)
    (hdiff : env.diffOutput sm.path = some out)
    (hdirty : strStrip out ≠ "") :
    (processSubmodule env false oc sm).1 = [Cmd.diff sm.path] ∧
    (∀ b o p, Cmd.update b o p ∉ (processSubmodule env false oc sm).1) ∧
    (processSubmodule env false oc sm).2 = ItemOutcome.done ∧
    (∀ rest, processList env false oc (sm :: rest) =
      (processSubmodule env false oc sm).1 ++ processList env false oc rest) := by
  have h1 : processSubmodule env false oc sm = ([Cmd.diff sm.path], ItemOutcome.done) := by
    simp [processSubmodule, hex, hdiff, hdirty]
  refine ⟨by rw [h1], ?_, by rw [h1], fun rest => rfl⟩
  intro b o p hmem
  rw [h1] at hmem
  simp at hmem

/-- Witness for the amended C2 at a concrete environment. -/
theorem C2_dirty_submodule_skipped_witness :
    (StdEnv.mk (fun _ => true) (fun _ => some " M file ") (fun _ => 1) (fun _ => 0)).pathExists
        "Common/Nt" = true ∧
    (StdEnv.mk (fun _ => true) (fun _ => some " M file ") (fun _ => 1) (fun _ => 0)).diffOutput
        "Common/Nt" = some " M file " ∧
    strStrip " M file " ≠ "" ∧
    ((processSubmodule (StdEnv.mk (fun _ => true) (fun _ => some " M file ") (fun _ => 1)
        (fun _ => 0)) false none ⟨"Common/Nt", true⟩).1 = [Cmd.diff "Common/Nt"] ∧
    (∀ b o p, Cmd.update b o p ∉ (processSubmodule (StdEnv.mk (fun _ => true)
        (fun _ => some " M file ") (fun _ => 1) (fun _ => 0)) false none ⟨"Common/Nt", true⟩).1) ∧
    (processSubmodule (StdEnv.mk (fun _ => true) (fun _ => some " M file ") (fun _ => 1)
        (fun _ => 0)) false none ⟨"Common/Nt", true⟩).2 = ItemOutcome.done ∧
    (∀ rest, processList (StdEnv.mk (fun _ => true) (fun _ => some " M file ") (fun _ => 1)
        (fun _ => 0)) false none (⟨"Common/Nt", true⟩ :: rest) =
      (processSubmodule (StdEnv.mk (fun _ => true) (fun _ => some " M file ") (fun _ => 1)
        (fun _ => 0)) false none ⟨"Common/Nt", true⟩).1 ++
        processList (StdEnv.mk (fun _ => true) (fun _ => some " M file ") (fun _ => 1)
          (fun _ => 0)) false none rest)) :=
  ⟨rfl, rfl, by decide,
    C2_dirty_submodule_skipped
      (StdEnv.mk (fun _ => true) (fun _ => some " M file ") (fun _ => 1) (fun _ => 0))
      none ⟨"Common/Nt", true⟩ " M file " rfl rfl (by decide)⟩

/-- C3: in standard mode, when the single combined sync command over
the joined declared paths exits nonzero, the whole operation ends
immediately with the bare Python return (modelled as none): the trace
holds exactly the sync command and in particular no per-submodule
update command is ever issued. -/
theorem C3_sync_failure_aborts (env : StdEnv) (force : Bool) (oc : Option String)
    (subs : List RequiredSubmodule)
    (hne : subs ≠ [])
    (hfail : env.syncRet (String.intercalate " " (subs.map RequiredSubmodule.path)) ≠ 0) :
    (Go_submodulePhase env force oc subs).1 =
      [Cmd.sync (String.intercalate " " (subs.map RequiredSubmodule.path))] ∧
    (Go_submodulePhase env force oc subs).2 = none ∧
    (∀ b o p, Cmd.update b o p ∉ (Go_submodulePhase env force oc subs).1) := by
  have he : subs.isEmpty = false := by
    cases subs with
    | nil => exact absurd rfl hne
    | cons a l => rfl
  have h1 : Go_submodulePhase env force oc subs =
      ([Cmd.sync (String.intercalate " " (subs.map RequiredSubmodule.path))], none) := by
    simp [Go_submodulePhase, he, hfail]
  refine ⟨by rw [h1], by rw [h1], ?_⟩
  intro b o p hmem
  rw [h1] at hmem
  simp at hmem

/-- Witness for C3 at a concrete environment with a failing sync. -/
theorem C3_sync_failure_aborts_witness :
    (([⟨"a", true⟩, ⟨"b", false⟩] : List RequiredSubmodule) ≠ []) ∧
    (StdEnv.mk (fun _ => true) (fun _ => some "") (fun _ => 0) (fun _ => 1)).syncRet
      (String.intercalate " "
        (([⟨"a", true⟩, ⟨"b", false⟩] : List RequiredSubmodule).map RequiredSubmodule.path)) ≠ 0 ∧
    ((Go_submodulePhase (StdEnv.mk (fun _ => true) (fun _ => some "") (fun _ => 0) (fun _ => 1))
        false none [⟨"a", true⟩, ⟨"b", false⟩]).1 =
      [Cmd.sync (String.intercalate " "
        (([⟨"a", true⟩, ⟨"b", false⟩] : List RequiredSubmodule).map RequiredSubmodule.path))] ∧
    (Go_submodulePhase (StdEnv.mk (fun _ => true) (fun _ => some "") (fun _ => 0) (fun _ => 1))
        false none [⟨"a", true⟩, ⟨"b", false⟩]).2 = none ∧
    (∀ b o p, Cmd.update b o p ∉
      (Go_submodulePhase (StdEnv.mk (fun _ => true) (fun _ => some "") (fun _ => 0) (fun _ => 1))
        false none [⟨"a", true⟩, ⟨"b", false⟩]).1)) :=
  ⟨by decide, by decide,
    C3_sync_failure_aborts
      (StdEnv.mk (fun _ => true) (fun _ => some "") (fun _ => 0) (fun _ => 1))
      false none [⟨"a", true⟩, ⟨"b", false⟩] (by decide) (by decide)⟩

/-- C5: in standard mode, when the update command of one declared
submodule is actually issued and exits nonzero, that iteration ends in
the logged-error outcome (the RuntimeError is caught by the per-item
except block), the loop still processes the submodules before and
after it in order, and, provided the combined sync succeeded, the
whole Go phase still returns status 0. -/
theorem C5_item_failure_keeps_going (env : StdEnv) (force : Bool) (oc : Option String)
    (sm : RequiredSubmodule) (pre post : List RequiredSubmodule)
    (hfail : env.updateRet sm.path ≠ 0)
    (hatt : ∃ b o p, Cmd.update b o p ∈ (processSubmodule env force oc sm).1)
    (hsync : env.syncRet
      (String.intercalate " " ((pre ++ sm :: post).map RequiredSubmodule.path)) = 0) :
    (processSubmodule env force oc sm).2 = ItemOutcome.errorLogged ∧
    (Go_submodulePhase env force oc (pre ++ sm :: post)).2 = some 0 ∧
    (Go_submodulePhase env force oc (pre ++ sm :: post)).1 =
      Cmd.sync (String.intercalate " " ((pre ++ sm :: post).map RequiredSubmodule.path)) ::
        (processList env force oc pre ++
          ((processSubmodule env force oc sm).1 ++ processList env force oc post)) := by
  have houtcome : (processSubmodule env force oc sm).2 = ItemOutcome.errorLogged := by
    obtain ⟨b, o, p, hmem⟩ := hatt
    by_cases hg : (env.pathExists sm.path && !force) = true
    · cases hd : env.diffOutput sm.path with
      | none =>
        have h1 : processSubmodule env force oc sm =
            ([Cmd.diff sm.path], ItemOutcome.errorLogged) := by
          simp [processSubmodule, hg, hd]
        rw [h1] at hmem
        simp at hmem
      | some out =>
        by_cases hs : strStrip out = ""
        · have h1 : processSubmodule env force oc sm =
              ([Cmd.diff sm.path, Cmd.update sm.recursive oc sm.path],
                ItemOutcome.errorLogged) := by
            simp [processSubmodule, hg, hd, hs, hfail]
          rw [h1]
        · have h1 : processSubmodule env force oc sm =
              ([Cmd.diff sm.path], ItemOutcome.done) := by
            simp [processSubmodule, hg, hd, hs]
          rw [h1] at hmem
          simp at hmem
    · have h1 : processSubmodule env force oc sm =
          ([Cmd.update sm.recursive oc sm.path], ItemOutcome.errorLogged) := by
        simp [processSubmodule, hg, hfail]
      rw [h1]
  have he : (pre ++ sm :: post).isEmpty = false := by
    cases pre with
    | nil => rfl
    | cons a l => rfl
  simp only [List.map_append, List.map_cons] at hsync
  refine ⟨houtcome, ?_, ?_⟩
  · simp [Go_submodulePhase, he, hsync]
  · simp [Go_submodulePhase, he, hsync, processList_append, processList]

/-- Witness for C5 at a concrete environment where the path is absent
so the update is attempted directly and fails, with one further
declared submodule after the failing one. -/
theorem C5_item_failure_keeps_going_witness :
    (StdEnv.mk (fun _ => false) (fun _ => some "") (fun _ => 1) (fun _ => 0)).updateRet "a" ≠ 0 ∧
    (∃ b o p, Cmd.update b o p ∈
      (processSubmodule (StdEnv.mk (fun _ => false) (fun _ => some "") (fun _ => 1) (fun _ => 0))
        false none ⟨"a", true⟩).1) ∧
    (StdEnv.mk (fun _ => false) (fun _ => some "") (fun _ => 1) (fun _ => 0)).syncRet
      (String.intercalate " "
        ((([] : List RequiredSubmodule) ++ (⟨"a", true⟩ : RequiredSubmodule) :: [(⟨"b", true⟩ : RequiredSubmodule)]).map
          RequiredSubmodule.path)) = 0 ∧
    ((processSubmodule (StdEnv.mk (fun _ => false) (fun _ => some "") (fun _ => 1) (fun _ => 0))
        false none ⟨"a", true⟩).2 = ItemOutcome.errorLogged ∧
    (Go_submodulePhase (StdEnv.mk (fun _ => false) (fun _ => some "") (fun _ => 1) (fun _ => 0))
        false none (([] : List RequiredSubmodule) ++ (⟨"a", true⟩ : RequiredSubmodule) :: [(⟨"b", true⟩ : RequiredSubmodule)])).2 = some 0 ∧
    (Go_submodulePhase (StdEnv.mk (fun _ => false) (fun _ => some "") (fun _ => 1) (fun _ => 0))
        false none (([] : List RequiredSubmodule) ++ (⟨"a", true⟩ : RequiredSubmodule) :: [(⟨"b", true⟩ : RequiredSubmodule)])).1 =
      Cmd.sync (String.intercalate " "
          ((([] : List RequiredSubmodule) ++ (⟨"a", true⟩ : RequiredSubmodule) :: [(⟨"b", true⟩ : RequiredSubmodule)]).map
            RequiredSubmodule.path)) ::
        (processList (StdEnv.mk (fun _ => false) (fun _ => some "") (fun _ => 1) (fun _ => 0))
            false none [] ++
          ((processSubmodule (StdEnv.mk (fun _ => false) (fun _ => some "") (fun _ => 1)
              (fun _ => 0)) false none ⟨"a", true⟩).1 ++
            processList (StdEnv.mk (fun _ => false) (fun _ => some "") (fun _ => 1) (fun _ => 0))
              false none [⟨"b", true⟩]))) :=
  ⟨by decide, ⟨true, none, "a", by decide⟩, by decide,
    C5_item_failure_keeps_going
      (StdEnv.mk (fun _ => false) (fun _ => some "") (fun _ => 1) (fun _ => 0))
      false none ⟨"a", true⟩ [] [⟨"b", true⟩]
      (by decide) ⟨true, none, "a", by decide⟩ (by decide)⟩

/-- C8: in standard mode with force off, when the path exists and the
dirty query itself exits nonzero (RunCmd raises because of
raise_exception_on_nonzero), the per-item except block catches the
error: the iteration ends in the logged-error outcome and no update
command is issued in that iteration, so the failure is not read as a
clean state. -/
theorem C8_diff_failure_hard_error (env : StdEnv) (oc : Option String)
    (sm : RequiredSubmodule)
    (hex : env.pathExists sm.path = true)
    (hdiff : env.diffOutput sm.path = none) :
    (processSubmodule env false oc sm).1 = [Cmd.diff sm.path] ∧
    (∀ b o p, Cmd.update b o p ∉ (processSubmodule env false oc sm).1) ∧
    (processSubmodule env false oc sm).2 = ItemOutcome.errorLogged := by
  have h1 : processSubmodule env false oc sm = ([Cmd.diff sm.path], ItemOutcome.errorLogged) := by
    simp [processSubmodule, hex, hdiff]
  refine ⟨by rw [h1], ?_, by rw [h1]⟩
  intro b o p hmem
  rw [h1] at hmem
  simp at hmem

/-- Witness for C8 at a concrete environment with a failing diff. -/
theorem C8_diff_failure_hard_error_witness :
    (StdEnv.mk (fun _ => true) (fun _ => none) (fun _ => 0) (fun _ => 0)).pathExists "a" = true ∧
    (StdEnv.mk (fun _ => true) (fun _ => none) (fun _ => 0) (fun _ => 0)).diffOutput "a" = none ∧
    ((processSubmodule (StdEnv.mk (fun _ => true) (fun _ => none) (fun _ => 0) (fun _ => 0))
        false none ⟨"a", true⟩).1 = [Cmd.diff "a"] ∧
    (∀ b o p, Cmd.update b o p ∉
      (processSubmodule (StdEnv.mk (fun _ => true) (fun _ => none) (fun _ => 0) (fun _ => 0))
        false none ⟨"a", true⟩).1) ∧
    (processSubmodule (StdEnv.mk (fun _ => true) (fun _ => none) (fun _ => 0) (fun _ => 0))
        false none ⟨"a", true⟩).2 = ItemOutcome.errorLogged) :=
  ⟨rfl, rfl,
    C8_diff_failure_hard_error
      (StdEnv.mk (fun _ => true) (fun _ => none) (fun _ => 0) (fun _ => 0))
      none ⟨"a", true⟩ rfl rfl⟩

/-- Shape of a special init call whose init command would exit
nonzero: depending on the url substitution outcome the call issues
only the (possibly failing) set-url command and at most the failing
init command, and reports False without recursing. -/
theorem special_init_submodule_init_failed (env : SpecialEnv) (cfg : List SubRule) (b : Bool)
    (root : String) (si : SubmoduleInfo) (children : SubForest)
    (hfail : env.initRet root si.path ≠ 0) :
    special_init_submodule env cfg b root (SubTree.mk si children) =
      match get_url_substitution_from_list si.url cfg with
      | some u =>
        if env.setUrlRet root si.name u = 0 then
          ([Cmd.setUrl root si.name u, Cmd.init root si.path], false)
        else ([Cmd.setUrl root si.name u], false)
      | none => ([Cmd.init root si.path], false) := by
  cases hm : get_url_substitution_from_list si.url cfg with
  | none => simp [special_init_submodule, hm, hfail]
  | some u =>
    by_cases hs : env.setUrlRet root si.name u = 0
    · simp [special_init_submodule, hm, hs, hfail]
    · simp [special_init_submodule, hm, hs]

/-- C1: in special setup, when the init command of a submodule node
exits nonzero, the walk of that node reports False and the only init
command possibly found in its trace is the failing one itself, so no
init command is issued for any nested submodule below it; the sibling
loop stops at that node, issuing nothing for the remaining siblings;
and the SpecialSetup call on a matching required declaration returns a
negative status. -/
theorem C1_nested_init_failure (env : SpecialEnv) (cfg : List SubRule) (b : Bool)
    (root : String) (si : SubmoduleInfo) (children : SubForest)
    (hfail : env.initRet root si.path ≠ 0) :
    (special_init_submodule env cfg b root (SubTree.mk si children)).2 = false ∧
    (∀ wd p, Cmd.init wd p ∈ (special_init_submodule env cfg b root (SubTree.mk si children)).1 →
      wd = root ∧ p = si.path) ∧
    (∀ rest, special_init_forest env cfg b root (SubForest.cons (SubTree.mk si children) rest) =
      ((special_init_submodule env cfg b root (SubTree.mk si children)).1, false)) ∧
    (SpecialSetup env cfg root (SubForest.cons (SubTree.mk si children) SubForest.nil)
      [⟨si.path, b⟩]).2 < 0 := by
  have hshape := special_init_submodule_init_failed env cfg b root si children hfail
  have h2 : (special_init_submodule env cfg b root (SubTree.mk si children)).2 = false := by
    rw [hshape]
    cases hm : get_url_substitution_from_list si.url cfg with
    | none => rfl
    | some u => by_cases hs : env.setUrlRet root si.name u = 0 <;> simp [hs]
  have hmem : ∀ wd p,
      Cmd.init wd p ∈ (special_init_submodule env cfg b root (SubTree.mk si children)).1 →
      wd = root ∧ p = si.path := by
    rw [hshape]
    cases hm : get_url_substitution_from_list si.url cfg with
    | none =>
      intro wd p hp
      simp at hp
      exact ⟨hp.1, hp.2⟩
    | some u =>
      by_cases hs : env.setUrlRet root si.name u = 0
      · intro wd p hp
        simp [hs] at hp
        exact ⟨hp.1, hp.2⟩
      · intro wd p hp
        simp [hs] at hp
  have hforest : ∀ rest,
      special_init_forest env cfg b root (SubForest.cons (SubTree.mk si children) rest) =
      ((special_init_submodule env cfg b root (SubTree.mk si children)).1, false) := by
    intro rest
    simp [special_init_forest, h2]
  have hsetup : (SpecialSetup env cfg root (SubForest.cons (SubTree.mk si children) SubForest.nil)
      [⟨si.path, b⟩]).2 < 0 := by
    simp [SpecialSetup, special_setup_outer, special_setup_inner, SubTree.info, h2]
  exact ⟨h2, hmem, hforest, hsetup⟩

/-- Witness for C1 at a concrete environment whose init commands all
fail, on a single root submodule with no nested records. -/
theorem C1_nested_init_failure_witness :
    (SpecialEnv.mk (fun _ _ _ => 0) (fun _ _ => 1)).initRet "ws" "p" ≠ 0 ∧
    ((special_init_submodule (SpecialEnv.mk (fun _ _ _ => 0) (fun _ _ => 1)) [] true "ws"
        (SubTree.mk ⟨"n", "p", "u"⟩ SubForest.nil)).2 = false ∧
    (∀ wd p, Cmd.init wd p ∈ (special_init_submodule (SpecialEnv.mk (fun _ _ _ => 0)
        (fun _ _ => 1)) [] true "ws" (SubTree.mk ⟨"n", "p", "u"⟩ SubForest.nil)).1 →
      wd = "ws" ∧ p = "p") ∧
    (∀ rest, special_init_forest (SpecialEnv.mk (fun _ _ _ => 0) (fun _ _ => 1)) [] true "ws"
        (SubForest.cons (SubTree.mk ⟨"n", "p", "u"⟩ SubForest.nil) rest) =
      ((special_init_submodule (SpecialEnv.mk (fun _ _ _ => 0) (fun _ _ => 1)) [] true "ws"
        (SubTree.mk ⟨"n", "p", "u"⟩ SubForest.nil)).1, false)) ∧
    (SpecialSetup (SpecialEnv.mk (fun _ _ _ => 0) (fun _ _ => 1)) [] "ws"
        (SubForest.cons (SubTree.mk ⟨"n", "p", "u"⟩ SubForest.nil) SubForest.nil)
        [⟨"p", true⟩]).2 < 0) :=
  ⟨by decide,
    C1_nested_init_failure (SpecialEnv.mk (fun _ _ _ => 0) (fun _ _ => 1)) [] true "ws"
      ⟨"n", "p", "u"⟩ SubForest.nil (by decide)⟩

/-- C6: in special setup, when the record url matches a substitution
rule, the set-url rewrite command is issued in the containing
repository before the init command; when the rewrite succeeds the
trace starts with the rewrite followed immediately by the init
command, and when the rewrite fails the call stops with exactly the
rewrite command in its trace and reports False, so the init command is
never issued for that entry. -/
theorem C6_rewrite_precedes_init (env : SpecialEnv) (cfg : List SubRule) (b : Bool)
    (root : String) (si : SubmoduleInfo) (children : SubForest) (u : String)
    (hmatch : get_url_substitution_from_list si.url cfg = some u) :
    (env.setUrlRet root si.name u = 0 →
      ∃ rest, (special_init_submodule env cfg b root (SubTree.mk si children)).1 =
        Cmd.setUrl root si.name u :: Cmd.init root si.path :: rest) ∧
    (env.setUrlRet root si.name u ≠ 0 →
      special_init_submodule env cfg b root (SubTree.mk si children) =
        ([Cmd.setUrl root si.name u], false)) := by
  constructor
  · intro hs
    by_cases hi : env.initRet root si.path = 0
    · by_cases hb : b = true
      · refine ⟨(special_init_forest env cfg b (pathJoin root si.path) children).1, ?_⟩
        simp [special_init_submodule, hmatch, hs, hi, hb]
      · refine ⟨[], ?_⟩
        simp [special_init_submodule, hmatch, hs, hi, hb]
    · refine ⟨[], ?_⟩
      simp [special_init_submodule, hmatch, hs, hi]
  · intro hs
    simp [special_init_submodule, hmatch, hs]

/-- Witness for C6 at a concrete environment and a matching rule,
covering the succeeding-rewrite side. -/
theorem C6_rewrite_precedes_init_witness :
    get_url_substitution_from_list "https://old/repo.git"
      [⟨"https://old/repo.git", "https://new/repo.git"⟩] = some "https://new/repo.git" ∧
    (((SpecialEnv.mk (fun _ _ _ => 0) (fun _ _ => 0)).setUrlRet "ws" "n"
        "https://new/repo.git" = 0 →
      ∃ rest, (special_init_submodule (SpecialEnv.mk (fun _ _ _ => 0) (fun _ _ => 0))
          [⟨"https://old/repo.git", "https://new/repo.git"⟩] true "ws"
          (SubTree.mk ⟨"n", "p", "https://old/repo.git"⟩ SubForest.nil)).1 =
        Cmd.setUrl "ws" "n" "https://new/repo.git" :: Cmd.init "ws" "p" :: rest) ∧
    ((SpecialEnv.mk (fun _ _ _ => 0) (fun _ _ => 0)).setUrlRet "ws" "n"
        "https://new/repo.git" ≠ 0 →
      special_init_submodule (SpecialEnv.mk (fun _ _ _ => 0) (fun _ _ => 0))
          [⟨"https://old/repo.git", "https://new/repo.git"⟩] true "ws"
          (SubTree.mk ⟨"n", "p", "https://old/repo.git"⟩ SubForest.nil) =
        ([Cmd.setUrl "ws" "n" "https://new/repo.git"], false))) :=
  ⟨by decide,
    C6_rewrite_precedes_init (SpecialEnv.mk (fun _ _ _ => 0) (fun _ _ => 0))
      [⟨"https://old/repo.git", "https://new/repo.git"⟩] true "ws"
      ⟨"n", "p", "https://old/repo.git"⟩ SubForest.nil "https://new/repo.git" (by decide)⟩

mutual
/-- No diff command ever appears in the trace of a special init call
on a submodule node: the special path never inspects dirty state. -/
theorem special_tree_no_diff (env : SpecialEnv) (cfg : List SubRule) (b : Bool) :
    (t : SubTree) → ∀ root p, Cmd.diff p ∉ (special_init_submodule env cfg b root t).1
  | SubTree.mk si children => by
    intro root p hp
    have hf := special_forest_no_diff env cfg b children (pathJoin root si.path) p
    cases hm : get_url_substitution_from_list si.url cfg with
    | none =>
      simp [special_init_submodule, hm] at hp
      by_cases hi : env.initRet root si.path = 0
      · simp [hi] at hp
        by_cases hb : b = true
        · subst hb
          simp at hp
          exact hf hp
        · simp [hb] at hp
      · simp [hi] at hp
    | some u =>
      simp [special_init_submodule, hm] at hp
      by_cases hs : env.setUrlRet root si.name u = 0
      · simp [hs] at hp
        by_cases hi : env.initRet root si.path = 0
        · simp [hi] at hp
          by_cases hb : b = true
          · subst hb
            simp at hp
            exact hf hp
          · simp [hb] at hp
        · simp [hi] at hp
      · simp [hs] at hp

/-- No diff command ever appears in the trace of the special sibling
loop. -/
theorem special_forest_no_diff (env : SpecialEnv) (cfg : List SubRule) (b : Bool) :
    (f : SubForest) → ∀ root p, Cmd.diff p ∉ (special_init_forest env cfg b root f).1
  | SubForest.nil => by
    intro root p hp
    simp [special_init_forest] at hp
  | SubForest.cons t rest => by
    intro root p hp
    have ht := special_tree_no_diff env cfg b t root p
    have hr := special_forest_no_diff env cfg b rest root p
    by_cases h2 : (special_init_submodule env cfg b root t).2 = true
    · simp [special_init_forest, h2] at hp
      rcases hp with hp | hp
      · exact ht hp
      · exact hr hp
    · simp [special_init_forest, h2] at hp
      exact ht hp
end

mutual
/-- When every set-url and every init command succeeds, a recursive
special init call succeeds and its trace holds the init command of
every node of the subtree, at the location recorded by treeLocs. -/
theorem special_tree_all_init (env : SpecialEnv) (cfg : List SubRule)
    (hset : ∀ wd n u, env.setUrlRet wd n u = 0)
    (hinit : ∀ wd p, env.initRet wd p = 0) :
    (t : SubTree) → ∀ root, (special_init_submodule env cfg true root t).2 = true ∧
      ∀ loc ∈ treeLocs root t,
        Cmd.init loc.1 loc.2 ∈ (special_init_submodule env cfg true root t).1
  | SubTree.mk si children => by
    intro root
    have hf := special_forest_all_init env cfg hset hinit children (pathJoin root si.path)
    cases hm : get_url_substitution_from_list si.url cfg with
    | none =>
      constructor
      · simp [special_init_submodule, hm, hinit root si.path, hf.1]
      · intro loc hloc
        simp [treeLocs] at hloc
        rcases hloc with hloc | hloc
        · simp [special_init_submodule, hm, hinit root si.path, hloc]
        · have := hf.2 loc hloc
          simp [special_init_submodule, hm, hinit root si.path]
          right
          exact this
    | some u =>
      constructor
      · simp [special_init_submodule, hm, hset root si.name u, hinit root si.path, hf.1]
      · intro loc hloc
        simp [treeLocs] at hloc
        rcases hloc with hloc | hloc
        · simp [special_init_submodule, hm, hset root si.name u, hinit root si.path, hloc]
        · have := hf.2 loc hloc
          simp [special_init_submodule, hm, hset root si.name u, hinit root si.path]
          right
          exact this

/-- When every set-url and every init command succeeds, the special
sibling loop succeeds and its trace holds the init command of every
node of every sibling subtree. -/
theorem special_forest_all_init (env : SpecialEnv) (cfg : List SubRule)
    (hset : ∀ wd n u, env.setUrlRet wd n u = 0)
    (hinit : ∀ wd p, env.initRet wd p = 0) :
    (f : SubForest) → ∀ root, (special_init_forest env cfg true root f).2 = true ∧
      ∀ loc ∈ forestLocs root f,
        Cmd.init loc.1 loc.2 ∈ (special_init_forest env cfg true root f).1
  | SubForest.nil => by
    intro root
    constructor
    · rfl
    · intro loc hloc
      simp [forestLocs] at hloc
  | SubForest.cons t rest => by
    intro root
    have ht := special_tree_all_init env cfg hset hinit t root
    have hr := special_forest_all_init env cfg hset hinit rest root
    constructor
    · simp [special_init_forest, ht.1, hr.1]
    · intro loc hloc
      simp [forestLocs] at hloc
      rcases hloc with hloc | hloc
      · have := ht.2 loc hloc
        simp [special_init_forest, ht.1]
        left
        exact this
      · have := hr.2 loc hloc
        simp [special_init_forest, ht.1]
        right
        exact this
end

/-- C10: the special setup walk of a submodule tree never inspects
dirty state: no diff command ever appears in its trace, whatever the
environment (the walk does not consult the force flag or any working
tree state at all); and when the issued commands succeed, an init
command is issued for the node at every location of every recursion
level of the tree. -/
theorem C10_special_never_checks_dirty (env : SpecialEnv) (cfg : List SubRule)
    (root : String) (t : SubTree) :
    (∀ p, Cmd.diff p ∉ (special_init_submodule env cfg true root t).1) ∧
    ((∀ wd n u, env.setUrlRet wd n u = 0) → (∀ wd p, env.initRet wd p = 0) →
      ∀ loc ∈ treeLocs root t,
        Cmd.init loc.1 loc.2 ∈ (special_init_submodule env cfg true root t).1) := by
  constructor
  · intro p
    exact special_tree_no_diff env cfg true t root p
  · intro hset hinit
    exact (special_tree_all_init env cfg hset hinit t root).2

/-- Witness for C10 at a concrete succeeding environment on a
two-level tree. -/
theorem C10_special_never_checks_dirty_witness :
    (∀ p, Cmd.diff p ∉ (special_init_submodule (SpecialEnv.mk (fun _ _ _ => 0) (fun _ _ => 0))
      [] true "ws" (SubTree.mk ⟨"n", "p", "u"⟩
        (SubForest.cons (SubTree.mk ⟨"n2", "p2", "u2"⟩ SubForest.nil) SubForest.nil))).1) ∧
    (∀ loc ∈ treeLocs "ws" (SubTree.mk ⟨"n", "p", "u"⟩
        (SubForest.cons (SubTree.mk ⟨"n2", "p2", "u2"⟩ SubForest.nil) SubForest.nil)),
      Cmd.init loc.1 loc.2 ∈ (special_init_submodule (SpecialEnv.mk (fun _ _ _ => 0)
        (fun _ _ => 0)) [] true "ws" (SubTree.mk ⟨"n", "p", "u"⟩
        (SubForest.cons (SubTree.mk ⟨"n2", "p2", "u2"⟩ SubForest.nil) SubForest.nil))).1) := by
  have h := C10_special_never_checks_dirty (SpecialEnv.mk (fun _ _ _ => 0) (fun _ _ => 0))
    [] "ws" (SubTree.mk ⟨"n", "p", "u"⟩
      (SubForest.cons (SubTree.mk ⟨"n2", "p2", "u2"⟩ SubForest.nil) SubForest.nil))
  exact ⟨h.1, h.2 (fun _ _ _ => rfl) (fun _ _ => rfl)⟩

/-- C9: when NuGet.exe already exists no download is attempted yet the
digest verification still runs; when the file exists and its digest
differs case-insensitively from the pinned constant the call ends in
the mismatch outcome with the file removed from disk; and in every
case that ends in the mismatch outcome the file is no longer on disk,
so a file that fails verification never survives the call. -/
theorem C9_existing_file_checked_and_mismatch_removed (env : NugetEnv) :
    (env.isFile = true →
      (DownloadNuget env).downloadAttempted = false ∧ (DownloadNuget env).hashChecked = true) ∧
    (env.isFile = true → strLower (env.sha256hex env.existingContent) ≠ strLower SHA256 →
      (DownloadNuget env).fileOnDisk = false ∧
        (DownloadNuget env).outcome = NugetOutcome.shaMismatch) ∧
    ((DownloadNuget env).outcome = NugetOutcome.shaMismatch →
      (DownloadNuget env).fileOnDisk = false) := by
  refine ⟨?_, ?_, ?_⟩
  · intro hf
    by_cases hh : strLower (env.sha256hex env.existingContent) ≠ strLower SHA256
    · simp [DownloadNuget, hf, hh]
    · simp [DownloadNuget, hf, hh]
  · intro hf hh
    simp [DownloadNuget, hf, hh]
  · intro ho
    by_cases hf : env.isFile = true
    · by_cases hh : strLower (env.sha256hex env.existingContent) ≠ strLower SHA256
      · simp [DownloadNuget, hf, hh]
      · simp [DownloadNuget, hf, hh] at ho
    · simp only [Bool.not_eq_true] at hf
      cases hd : env.downloadResult with
      | none => simp [DownloadNuget, hf, hd] at ho
      | some content =>
        by_cases hh : strLower (env.sha256hex content) ≠ strLower SHA256
        · simp [DownloadNuget, hf, hd, hh]
        · simp [DownloadNuget, hf, hd, hh] at ho

/-- Witness for C9 at a concrete environment: the file exists and its
digest does not match the pinned constant. -/
theorem C9_existing_file_checked_and_mismatch_removed_witness :
    ((NugetEnv.mk true [1, 2] none (fun _ => "00")).isFile = true) ∧
    (strLower ((NugetEnv.mk true [1, 2] none (fun _ => "00")).sha256hex
      (NugetEnv.mk true [1, 2] none (fun _ => "00")).existingContent) ≠ strLower SHA256) ∧
    ((DownloadNuget (NugetEnv.mk true [1, 2] none (fun _ => "00"))).outcome =
      NugetOutcome.shaMismatch) ∧
    ((DownloadNuget (NugetEnv.mk true [1, 2] none (fun _ => "00"))).downloadAttempted = false ∧
      (DownloadNuget (NugetEnv.mk true [1, 2] none (fun _ => "00"))).hashChecked = true) ∧
    ((DownloadNuget (NugetEnv.mk true [1, 2] none (fun _ => "00"))).fileOnDisk = false ∧
      (DownloadNuget (NugetEnv.mk true [1, 2] none (fun _ => "00"))).outcome =
        NugetOutcome.shaMismatch) ∧
    ((DownloadNuget (NugetEnv.mk true [1, 2] none (fun _ => "00"))).fileOnDisk = false) := by
  have h := C9_existing_file_checked_and_mismatch_removed
    (NugetEnv.mk true [1, 2] none (fun _ => "00"))
  exact ⟨rfl, by decide, by decide, h.1 rfl, h.2.1 rfl (by decide), h.2.2 (by decide)⟩

end Edk2Setup
